import Mathlib

/-!
# Verification of the RVms SharePoint client core

A shallow embedding, in Lean 4, of the core of the `RVms` Python package:
the authenticated Graph request dispatcher (`RVms/sharepoint/auth.py`),
the error translation layer (`RVms/connection/exceptions.py`),
the drive identity cache (`RVms/sharepoint/site.py`), and the document
operations — chunked upload, folder materialization, URL parsing,
download/delete and the pre-auth/preview URL helpers
(`RVms/sharepoint/document.py`).

Python strings are modelled as `List Char`; the Python string methods
used by the source (`strip`, `lstrip`, `split`, `join`, `startswith`)
are reproduced as executable Lean functions.  Network traffic is
modelled by oracles mapping requests to responses, and the functions
return, besides their result, the trace of requests they issued.
-/

set_option maxHeartbeats 1000000

namespace RVms

/-- Python strings, modelled as lists of characters. -/
abbrev Str := List Char

/-- The apostrophe character, used by several source error messages. -/
def sq : Char := Char.ofNat 39

/-- `s.lstrip(c)` for a single strip character: drop from the left. -/
def pyLStrip (p : Char → Bool) (s : Str) : Str := s.dropWhile p

/-- `s.rstrip(c)` for a single strip character: drop from the right. -/
def pyRStrip (p : Char → Bool) (s : Str) : Str :=
  (s.reverse.dropWhile p).reverse

/-- `s.strip(c)`: drop from both ends. -/
def pyStrip (p : Char → Bool) (s : Str) : Str := pyRStrip p (pyLStrip p s)

/-- `s.lstrip("/")`. -/
def lstripSlash (s : Str) : Str := pyLStrip (fun c => c == '/') s

/-- `s.strip("/")`. -/
def stripSlash (s : Str) : Str := pyStrip (fun c => c == '/') s

/-- `s.strip()` — strip ASCII whitespace from both ends. -/
def stripWs (s : Str) : Str := pyStrip (fun c => c.isWhitespace) s

/-- `s.startswith(p)`. -/
def pyStartsWith (p s : Str) : Bool := List.isPrefixOf p s

/-- `s.split(c, 1)`: split at the first occurrence of `c`.
`none` when `c` does not occur (Python would return a one-element list,
which the source treats as the failure case). -/
def pySplitOnce (c : Char) : Str → Option (Str × Str)
  | [] => none
  | a :: rest =>
    if a = c then some ([], rest)
    else match pySplitOnce c rest with
      | none => none
      | some (l, r) => some (a :: l, r)

/-- `s.split(c)` (full split; `"".split(c) = [""]`, empty pieces kept). -/
def pySplit (c : Char) : Str → List Str
  | [] => [[]]
  | a :: rest =>
    if a = c then [] :: pySplit c rest
    else match pySplit c rest with
      | [] => [[a]]
      | piece :: more => (a :: piece) :: more

/-- `sep.join(xs)`. -/
def pyJoin (sep : Str) : List Str → Str
  | [] => []
  | [x] => x
  | x :: y :: rest => x ++ sep ++ pyJoin sep (y :: rest)

/-- Decimal rendering of a natural number (`str(n)` in Python). -/
def natStr (n : Nat) : Str := Nat.toDigits 10 n

/-! ## Error taxonomy (`RVms/connection/exceptions.py`) -/

/-- `GraphError(message, status_code, response_text)`: a Graph call that
failed at the HTTP layer, carrying the status code and the raw body. -/
structure GraphError where
  message : Str
  status_code : Nat
  response_text : Str
deriving DecidableEq, Repr

/-- The domain error taxonomy: the SharePoint-specific exception classes
of `exceptions.py`, plus `graph` for an untranslated `GraphError`,
`pyError` for interpreter-level failures (`KeyError`/`TypeError`/
`ValueError`) and `httpError` for `requests.raise_for_status`. -/
inductive DomainError where
  | notFound (msg : Str)
  | permissionDenied (msg : Str)
  | conflict (msg : Str)
  | pathError (msg : Str)
  | runtimeError (msg : Str)
  | graph (e : GraphError)
  | pyError (msg : Str)
  | httpError (status : Nat)
deriving DecidableEq, Repr

deriving instance DecidableEq for Except

/-- The status-code part of `translate_graph_error`: which domain error
a given `GraphError` becomes.  404 → not-found, 401/403 → permission,
409 → conflict, anything else re-surfaces the original error. -/
def translateErr (target : Str) (e : GraphError) : DomainError :=
  let msg := target ++ (" (Graph status ").data ++ natStr e.status_code ++ [')']
  if e.status_code = 404 then
    .notFound (("Not found: ").data ++ msg)
  else if e.status_code = 401 ∨ e.status_code = 403 then
    .permissionDenied (("Permission denied: ").data ++ msg)
  else if e.status_code = 409 then
    .conflict (("Conflict: ").data ++ msg)
  else
    .graph e

/-- `translate_graph_error(target, e)`: always raises (the Python
function never returns normally), so its value type is uninhabited. -/
def translate_graph_error (target : Str) (e : GraphError) :
    Except DomainError Empty :=
  .error (translateErr target e)

/-! ## The request dispatcher (`SPConnection.graph_request`, auth.py) -/

/-- Python `pat in s` for strings: substring containment. -/
def containsSub (pat s : Str) : Bool :=
  (List.range (s.length + 1)).any (fun i => pyStartsWith pat (s.drop i))

/-- `"application/json" in content_type`. -/
def jsonCT (ct : Str) : Bool := containsSub ("application/json").data ct

/-- An HTTP response as seen by the client: status code, the
`Content-Type` header (`""` when absent), the raw body (`resp.text`
and `resp.content`), the `Location` header, and the outcome of
`resp.json()` (`none` models a `ValueError` on malformed JSON). -/
structure HttpResp where
  status_code : Nat
  content_type : Str
  text : Str
  content : Str
  location : Option Str
  jsonVal : Option (List (Str × Str))
deriving DecidableEq, Repr

/-- A parsed JSON object, modelled as a string-to-string association
list (all the fields the source reads are strings). -/
abbrev JsonObj := List (Str × Str)

/-- `dict.get(key)`. -/
def jsonGet (j : JsonObj) (key : Str) : Option Str :=
  match j.find? (fun p => p.1 == key) with
  | some p => some p.2
  | none => none

/-- What the dispatcher returns on an accepted status: either the raw
response handle or the decoded JSON body. -/
inductive GraphRet where
  | raw (r : HttpResp)
  | json (j : JsonObj)
deriving DecidableEq, Repr

/-- The `expected_status` argument: Python accepts a single int or a
tuple of ints. -/
inductive ExpStatus where
  | single (n : Nat)
  | many (ns : List Nat)
deriving DecidableEq, Repr

/-- `if isinstance(expected_status, int): expected_status = (expected_status,)`. -/
def ExpStatus.toList : ExpStatus → List Nat
  | .single n => [n]
  | .many ns => ns

/-- The accepted status set actually used by a dispatcher call: the
caller-supplied set, or the signature default `(200, 201, 204)`. -/
def effExpected (expected : Option ExpStatus) : List Nat :=
  (expected.getD (.many [200, 201, 204])).toList

/-- `kwargs.pop("timeout", 15)`: the timeout actually sent. -/
def effTimeout (timeoutArg : Option Nat) : Nat := timeoutArg.getD 15

/-- The error message `f"Graph {method} {url} failed"`. -/
def graphFailMsg (method url : Str) : Str :=
  ("Graph ").data ++ method ++ [' '] ++ url ++ (" failed").data

/-- The outcome of one dispatcher call: the timeout it sent with the
request, and either a `GraphError` (status not accepted) or the
returned value. -/
structure GraphCall where
  sentTimeout : Nat
  result : Except GraphError GraphRet
deriving Repr

/-- `SPConnection.graph_request` (auth.py lines 83-138), given the
response `resp` the transport produced.  Validates the status against
the expected set, then returns the raw handle for 204 / streamed
transfers / non-JSON content types, otherwise the parsed JSON body,
degrading to the raw handle when parsing fails. -/
def graph_request (method url : Str) (expected : Option ExpStatus)
    (timeoutArg : Option Nat) (stream : Bool) (resp : HttpResp) :
    GraphCall :=
  let t := effTimeout timeoutArg
  if resp.status_code ∈ effExpected expected then
    if resp.status_code = 204 ∨ stream = true ∨ jsonCT resp.content_type = false then
      ⟨t, .ok (.raw resp)⟩
    else
      match resp.jsonVal with
      | some j => ⟨t, .ok (.json j)⟩
      | none => ⟨t, .ok (.raw resp)⟩
  else
    ⟨t, .error ⟨graphFailMsg method url, resp.status_code, resp.text⟩⟩

/-! ## Site-relative URL construction and parsing
(`SharepointDocument._server_relative_from_path` /
`_parse_server_relative_url`) -/

/-- `_server_relative_from_path` (document.py lines 209-215):
`f"/{site_path}/{library_name}/{item_path.strip(chr(47))}"` with
`site_path = self.site.site_path.lstrip(chr(47))`. -/
def _server_relative_from_path (site_path library_name item_path : Str) :
    Str :=
  ['/'] ++ lstripSlash site_path ++ ['/'] ++ library_name ++ ['/'] ++
    stripSlash item_path

/-- `_parse_server_relative_url` (document.py lines 92-114): strip the
URL, require a leading slash, require the site prefix, then split the
remainder at the first slash into library name and item path. -/
def _parse_server_relative_url (hostname site_path url0 : Str) :
    Except DomainError (Str × Str) :=
  if pyStartsWith ['/'] (stripWs url0) = false then
    .error (.pathError
      (("Expected server relative URL to start with ").data ++
        [sq, '/', sq] ++ (", got ").data ++ [sq] ++ stripWs url0 ++ [sq]))
  else if pyStartsWith (['/'] ++ lstripSlash site_path ++ ['/'])
      (stripWs url0) = false then
    .error (.pathError
      (("URL ").data ++ [sq] ++ stripWs url0 ++ [sq] ++
        (" does not belong to site ").data ++ [sq] ++ hostname ++
        site_path ++ [sq]))
  else
    match pySplitOnce '/' ((stripWs url0).drop
        (['/'] ++ lstripSlash site_path ++ ['/']).length) with
    | none =>
      .error (.pathError
        (("Cannot parse library + path from URL ").data ++ [sq] ++
          stripWs url0 ++ [sq]))
    | some (library_name, item_path) => .ok (library_name, item_path)

/-! ## Upload strategy selection (`SharepointDocument.upload`) -/

/-- The fixed small-file threshold: `4 * 1024 * 1024` bytes (4 MiB). -/
def small_file_threshold : Nat := 4 * 1024 * 1024

/-- The single-PUT content URL
`{graph_base}/drives/{drive_id}/root:/{item_path}:/content`. -/
def contentPutUrl (graphBase driveId itemPath : Str) : Str :=
  graphBase ++ ("/drives/").data ++ driveId ++ ("/root:/").data ++
    itemPath ++ (":/content").data

/-- The upload-session creation URL
`{graph_base}/drives/{drive_id}/root:/{item_path}:/createUploadSession`. -/
def createSessionUrl (graphBase driveId itemPath : Str) : Str :=
  graphBase ++ ("/drives/").data ++ driveId ++ ("/root:/").data ++
    itemPath ++ (":/createUploadSession").data

/-- The two upload strategies of `upload`: a single in-memory PUT, or a
resumable upload session followed by chunked PUTs.  Each constructor
carries the URL of its first request and the expected status sets. -/
inductive UploadStrategy where
  | small (url : Str) (expected : List Nat)
  | large (sessionUrl : Str) (sessionExpected chunkExpected : List Nat)
deriving DecidableEq, Repr

/-- Whether a strategy is the small-file path. -/
def UploadStrategy.isSmall : UploadStrategy → Bool
  | .small _ _ => true
  | .large _ _ _ => false

/-- The strategy `upload` (document.py lines 339-361) selects for a
payload of the given size: `file.size() <= small_file_threshold` takes
the whole-payload PUT with expected `(200, 201)`, anything larger goes
through `createUploadSession` (expected `200`) and chunked PUTs
(expected `(200, 201, 202)`). -/
def uploadStrategy (graphBase driveId itemPath : Str) (size : Nat) :
    UploadStrategy :=
  if size ≤ small_file_threshold then
    .small (contentPutUrl graphBase driveId itemPath) [200, 201]
  else
    .large (createSessionUrl graphBase driveId itemPath) [200] [200, 201, 202]

/-! ## The chunked upload loop (`_upload_large_file_stream`) -/

/-- One chunk PUT of the upload session: the byte offset at which the
chunk starts, its length, and the `Content-Length` / `Content-Range`
headers and expected status set it is sent with. -/
structure ChunkReq where
  start : Nat
  len : Nat
  contentLength : Str
  contentRange : Str
  expected : List Nat
deriving DecidableEq, Repr

/-- The `Content-Range` header `f"bytes {start}-{end}/{file_size}"`
with `end = start + chunk_len - 1`. -/
def contentRangeStr (start len total : Nat) : Str :=
  ("bytes ").data ++ natStr start ++ ['-'] ++ natStr (start + len - 1) ++
    ['/'] ++ natStr total

/-- The chunk loop of `_upload_large_file_stream` (document.py lines
260-291): repeatedly `f.read(chunk_size)` (which yields
`min chunk_size remaining` bytes, and the empty chunk that ends the
loop once the stream is exhausted — immediately when
`chunk_size = 0`), send the chunk with its headers, and advance
`bytes_uploaded` by the chunk length.  Returns the list of chunk PUTs
issued and the final `bytes_uploaded`. -/
def uploadLoop (chunkSize total bytesUploaded remaining : Nat) :
    List ChunkReq × Nat :=
  if h : chunkSize = 0 ∨ remaining = 0 then ([], bytesUploaded)
  else
    let l := min chunkSize remaining
    let req : ChunkReq :=
      ⟨bytesUploaded, l, natStr l,
        contentRangeStr bytesUploaded l total, [200, 201, 202]⟩
    let rest := uploadLoop chunkSize total (bytesUploaded + l) (remaining - l)
    (req :: rest.1, rest.2)
termination_by remaining
decreasing_by
  push_neg at h
  have h1 : 1 ≤ min chunkSize remaining := by omega
  omega

/-- `_upload_large_file_stream` chunk accounting: the session starts at
`bytes_uploaded = 0` and streams the whole file of `file_size` bytes. -/
def uploadChunkRun (chunkSize file_size : Nat) : List ChunkReq × Nat :=
  uploadLoop chunkSize file_size 0 file_size

/-! ## Folder materialization (`_ensure_folder_path`) -/

/-- HTTP methods used by the client. -/
inductive Method where
  | GET
  | POST
  | PUT
  | DELETE
  | PATCH
deriving DecidableEq, Repr

/-- The JSON body of the create-folder POST:
`{"name": name, "folder": {}, "@microsoft.graph.conflictBehavior": conflictBehavior}`
(the `folder` member is the empty object and is not represented). -/
structure FolderBody where
  name : Str
  conflictBehavior : Str
deriving DecidableEq, Repr

/-- One request issued during folder materialization: method, URL, the
create body when present, and the expected status set. -/
structure FRequest where
  method : Method
  url : Str
  body : Option FolderBody
  expected : List Nat
deriving DecidableEq, Repr

/-- The probe URL `{graph_base}/drives/{drive_id}/root:/{current_path}`. -/
def folderProbeUrl (graphBase driveId cur : Str) : Str :=
  graphBase ++ ("/drives/").data ++ driveId ++ ("/root:/").data ++ cur

/-- The create URL: `.../root:/{parent_path}:/children` when the parent
path is non-empty, `.../root/children` otherwise. -/
def folderChildrenUrl (graphBase driveId parent : Str) : Str :=
  if parent = [] then
    graphBase ++ ("/drives/").data ++ driveId ++ ("/root/children").data
  else
    graphBase ++ ("/drives/").data ++ driveId ++ ("/root:/").data ++
      parent ++ (":/children").data

/-- The translation target `f"folder {current_path}"` (single-quoted in
the source). -/
def folderTarget (cur : Str) : Str :=
  ("folder ").data ++ [sq] ++ cur ++ [sq]

/-- The loop body of `_ensure_folder_path` (document.py lines 166-206),
transcribed from the source: accumulate
`current_path = (current_path + "/" + part).strip("/")` as a string,
probe it with a GET (default expected statuses), and on a 404 rebuild
the parent as `"/".join(current_path.split("/")[:-1])` and POST the
missing segment to its children collection expecting 201.  A non-404
probe failure or any create failure stops the walk with the translated
error.  Returns the issued requests and the outcome. -/
def ensureLoopImpl (net : Method → Str → HttpResp) (graphBase driveId : Str) :
    Str → List Str → List FRequest × Except DomainError Unit
  | _, [] => ([], .ok ())
  | current_path, part :: rest =>
    let cur := stripSlash (current_path ++ '/' :: part)
    let url := folderProbeUrl graphBase driveId cur
    let probe : FRequest := ⟨.GET, url, none, [200, 201, 204]⟩
    match (graph_request ("GET").data url none none false (net .GET url)).result with
    | .ok _ =>
      let r := ensureLoopImpl net graphBase driveId cur rest
      (probe :: r.1, r.2)
    | .error e =>
      if e.status_code = 404 then
        let parent_path := pyJoin ['/'] (pySplit '/' cur).dropLast
        let parent_url := folderChildrenUrl graphBase driveId parent_path
        let createReq : FRequest :=
          ⟨.POST, parent_url, some ⟨part, ("fail").data⟩, [201]⟩
        match (graph_request ("POST").data parent_url (some (.single 201))
            none false (net .POST parent_url)).result with
        | .ok _ =>
          let r := ensureLoopImpl net graphBase driveId cur rest
          (probe :: createReq :: r.1, r.2)
        | .error e2 =>
          ([probe, createReq], .error (translateErr (folderTarget cur) e2))
      else ([probe], .error (translateErr (folderTarget cur) e))

/-- `_ensure_folder_path` (document.py lines 157-207): strip the folder
path, return `""` for an empty one, otherwise split into parts and walk
them with `current_path = ""`; on success return the normalized
(stripped) folder path. -/
def _ensure_folder_path (net : Method → Str → HttpResp)
    (graphBase driveId folder_path : Str) :
    List FRequest × Except DomainError Str :=
  if stripSlash folder_path = [] then ([], .ok [])
  else
    ((ensureLoopImpl net graphBase driveId []
        (pySplit '/' (stripSlash folder_path))).1,
      (ensureLoopImpl net graphBase driveId []
        (pySplit '/' (stripSlash folder_path))).2.map
        fun _ => stripSlash folder_path)

/-- The folder-materialization walk exactly as the specification words
it: walk the segments left to right accumulating the prefix as a
segment list; for each prefix, probe with a GET; if found, continue; on
a 404 create exactly that missing segment as a child of its immediate
parent via a POST to the parent's children collection with body
`{name, folder: {}, conflictBehavior: "fail"}` expecting 201, then
continue; any non-404 failure at a probe step and any failure at a
create step is translated and raised immediately, and no later segment
is probed or created after such a failure. -/
def ensureFolderSpecWalk (net : Method → Str → HttpResp)
    (graphBase driveId : Str) :
    List Str → List Str → List FRequest × Except DomainError Unit
  | _, [] => ([], .ok ())
  | done, part :: rest =>
    let cur := pyJoin ['/'] (done ++ [part])
    let url := folderProbeUrl graphBase driveId cur
    let probe : FRequest := ⟨.GET, url, none, [200, 201, 204]⟩
    match (graph_request ("GET").data url none none false (net .GET url)).result with
    | .ok _ =>
      let r := ensureFolderSpecWalk net graphBase driveId (done ++ [part]) rest
      (probe :: r.1, r.2)
    | .error e =>
      if e.status_code = 404 then
        let parent_url := folderChildrenUrl graphBase driveId (pyJoin ['/'] done)
        let createReq : FRequest :=
          ⟨.POST, parent_url, some ⟨part, ("fail").data⟩, [201]⟩
        match (graph_request ("POST").data parent_url (some (.single 201))
            none false (net .POST parent_url)).result with
        | .ok _ =>
          let r := ensureFolderSpecWalk net graphBase driveId (done ++ [part]) rest
          (probe :: createReq :: r.1, r.2)
        | .error e2 =>
          ([probe, createReq], .error (translateErr (folderTarget cur) e2))
      else ([probe], .error (translateErr (folderTarget cur) e))

/-- Top level of the specification-level walk: same stripping and
splitting as the source, walking from the empty prefix. -/
def ensure_folder_spec (net : Method → Str → HttpResp)
    (graphBase driveId folder_path : Str) :
    List FRequest × Except DomainError Str :=
  if stripSlash folder_path = [] then ([], .ok [])
  else
    ((ensureFolderSpecWalk net graphBase driveId []
        (pySplit '/' (stripSlash folder_path))).1,
      (ensureFolderSpecWalk net graphBase driveId []
        (pySplit '/' (stripSlash folder_path))).2.map
        fun _ => stripSlash folder_path)

/-- A constant transport oracle: every request gets a bare 200. -/
def net200 : Method → Str → HttpResp :=
  fun _ _ => ⟨200, [], [], [], none, none⟩

/-! ## Drive lookup (`SharePointSite.get_drive_id`, site.py lines 63-90) -/

/-- One entry of the site's drive listing (`$select=id,name`). -/
structure DriveInfo where
  id : Str
  name : Str
deriving DecidableEq, Repr

/-- `library_name or self.default_library` (Python truthiness: `None`
and the empty string both fall back to the default). -/
def effLibrary (library_name : Option Str) (defaultLibrary : Str) : Str :=
  match library_name with
  | none => defaultLibrary
  | some l => if l = [] then defaultLibrary else l

/-- The linear scan `for d in data["value"]: if d.get("name") == lib`,
returning the first matching drive id. -/
def firstDriveMatch : List DriveInfo → Str → Option Str
  | [], _ => none
  | d :: rest, lib => if d.name = lib then some d.id else firstDriveMatch rest lib

/-- The not-found message: `Drive {lib} not found on site
{hostname}{site_path}. Available drives: {names joined by ", "}`
(the library name is single-quoted in the source). -/
def driveNotFoundMsg (hostname spNorm lib : Str)
    (drives : List DriveInfo) : Str :=
  ("Drive ").data ++ [sq] ++ lib ++ [sq] ++ (" not found on site ").data ++
    hostname ++ spNorm ++ (". Available drives: ").data ++
    pyJoin ((", ").data) (drives.map DriveInfo.name)

/-- `get_drive_id` given the drive cache and the site's drive listing:
return the cached id on a cache hit; otherwise scan the listing by
name, memoizing and returning the first match, and fail with a
not-found error listing the available drive names when nothing
matches.  Returns the id together with the updated cache. -/
def get_drive_id (cache : List (Str × Str)) (drives : List DriveInfo)
    (hostname spNorm : Str) (library_name : Option Str)
    (defaultLibrary : Str) : Except DomainError (Str × List (Str × Str)) :=
  match jsonGet cache (effLibrary library_name defaultLibrary) with
  | some cached => .ok (cached, cache)
  | none =>
    match firstDriveMatch drives (effLibrary library_name defaultLibrary) with
    | some i =>
      .ok (i, (effLibrary library_name defaultLibrary, i) :: cache)
    | none =>
      .error (.notFound (driveNotFoundMsg hostname spNorm
        (effLibrary library_name defaultLibrary) drives))

/-! ## The document handle (`SharepointDocument`) -/

/-- The mutable state of one `SharepointDocument`: the optional
server-relative `url`, the optional `library` override, and the
internal `_drive_id`, `_item_id`, `_item_path` and `file` fields. -/
structure DocState where
  url : Option Str
  library : Option Str
  drive_id : Option Str
  item_id : Option Str
  item_path : Option Str
  file : Option JsonObj
deriving DecidableEq, Repr

/-- The document's environment: the site constants, the drive-id
resolver (`site.get_drive_id`, modelled as an oracle since site.py owns
its cache), and the HTTP transport. -/
structure DocEnv where
  graph_base : Str
  hostname : Str
  site_path : Str
  default_library : Str
  drive_oracle : Str → Except DomainError Str
  net : Method → Str → HttpResp

/-- One observable step of a document operation: a drive-id
resolution, a driveItem path resolution (`GET root:/{item_path}` inside
`_resolve_item_by_path`), a dispatcher call, or a direct
`requests.get`/`requests.post` outside the dispatcher. -/
inductive DStep where
  | getDriveId (library_name : Str)
  | resolveItem (driveId itemPath : Str)
  | graphCall (method : Method) (url : Str) (expected : List Nat)
  | plainGet (url : Str)
  | plainPost (url : Str)
deriving DecidableEq, Repr

/-- `self.library or self.site.default_library`. -/
def library_name (env : DocEnv) (st : DocState) : Str :=
  match st.library with
  | none => env.default_library
  | some l => if l = [] then env.default_library else l

/-- `_ensure_drive_id` (document.py lines 87-90): resolve and cache the
drive id through the site when `_drive_id` is unset (Python truthiness:
`None` or empty). -/
def _ensure_drive_id (env : DocEnv) (st : DocState) :
    List DStep × Except DomainError (Str × DocState) :=
  if (st.drive_id.getD []) = [] then
    match env.drive_oracle (library_name env st) with
    | .ok d =>
      ([.getDriveId (library_name env st)],
        .ok (d, { st with drive_id := some d }))
    | .error e => ([.getDriveId (library_name env st)], .error e)
  else ([], .ok (st.drive_id.getD [], st))

/-- The translation target
`f"item {item_path} in library {library_name}"` (single-quoted in the
source). -/
def itemTarget (env : DocEnv) (st : DocState) (item_path : Str) : Str :=
  ("item ").data ++ [sq] ++ item_path ++ [sq] ++ (" in library ").data ++
    [sq] ++ library_name env st ++ [sq]

/-- `_resolve_item_by_path` (document.py lines 142-155): strip the item
path, `GET {graph_base}/drives/{drive_id}/root:/{item_path}` with the
default expected statuses, translating a transport failure. -/
def _resolve_item_by_path (env : DocEnv) (st : DocState)
    (driveId item_path0 : Str) :
    List DStep × Except DomainError GraphRet :=
  match (graph_request ("GET").data
      (env.graph_base ++ ("/drives/").data ++ driveId ++ ("/root:/").data ++
        stripSlash item_path0) none none false
      (env.net .GET
        (env.graph_base ++ ("/drives/").data ++ driveId ++ ("/root:/").data ++
          stripSlash item_path0))).result with
  | .ok ret => ([.resolveItem driveId (stripSlash item_path0)], .ok ret)
  | .error e =>
    ([.resolveItem driveId (stripSlash item_path0)],
      .error (translateErr (itemTarget env st (stripSlash item_path0)) e))

/-- `_ensure_item_from_url` (document.py lines 116-140): nothing to do
when an item id is present; fail with a path error when no url is set;
otherwise parse the url, adopt its library when none was set, ensure
the drive id, resolve the item by path, and bind
`_item_id`/`_item_path`/`file` from the resolved driveItem. -/
def _ensure_item_from_url (env : DocEnv) (st : DocState) :
    List DStep × Except DomainError DocState :=
  if (st.item_id.getD []) ≠ [] then ([], .ok st)
  else if (st.url.getD []) = [] then
    ([], .error (.pathError
      (("SharepointDocument has no ").data ++ [sq] ++ ("url").data ++
        [sq] ++ (" set and no item loaded.").data)))
  else
    match _parse_server_relative_url env.hostname env.site_path
        (st.url.getD []) with
    | .error e => ([], .error e)
    | .ok (lib, ipath) =>
      match _ensure_drive_id env
          (if st.library = none then { st with library := some lib }
            else st) with
      | (tr, .error e) => (tr, .error e)
      | (tr, .ok (d, st2)) =>
        match _resolve_item_by_path env st2 d ipath with
        | (tr2, .error e) => (tr ++ tr2, .error e)
        | (tr2, .ok (.json item)) =>
          match jsonGet item (("id").data) with
          | some iid =>
            (tr ++ tr2, .ok { st2 with
              item_id := some iid,
              item_path := some ipath,
              file := some item })
          | none => (tr ++ tr2, .error (.pyError (("KeyError: id").data)))
        | (tr2, .ok (.raw _)) =>
          (tr ++ tr2,
            .error (.pyError (("TypeError: driveItem response is not a dict").data)))

/-- The shared preamble of `delete`, `download` and `set_metadata`:
ensure the drive id, then lazily resolve the url into an item when no
item id is bound yet (Python truthiness on `self._item_id`). -/
def bindPhase (env : DocEnv) (st : DocState) :
    List DStep × Except DomainError (Str × DocState) :=
  match _ensure_drive_id env st with
  | (tr, .error e) => (tr, .error e)
  | (tr, .ok (d, st1)) =>
    if (st1.item_id.getD []) = [] then
      match _ensure_item_from_url env st1 with
      | (tr2, .error e) => (tr ++ tr2, .error e)
      | (tr2, .ok st2) => (tr ++ tr2, .ok (d, st2))
    else (tr, .ok (d, st1))

/-- `{graph_base}/drives/{drive_id}/items/{item_id}`. -/
def itemUrl (env : DocEnv) (d : Str) (st : DocState) : Str :=
  env.graph_base ++ ("/drives/").data ++ d ++ ("/items/").data ++
    (st.item_id.getD [])

/-- The content URL `.../items/{item_id}/content`. -/
def contentUrl (env : DocEnv) (d : Str) (st : DocState) : Str :=
  itemUrl env d st ++ ("/content").data

/-- The preview URL `.../items/{item_id}/preview`. -/
def previewEndpointUrl (env : DocEnv) (d : Str) (st : DocState) : Str :=
  itemUrl env d st ++ ("/preview").data

/-- `self.url or self._item_path`, used in diagnostic messages. -/
def urlOrPath (st : DocState) : Str :=
  if (st.url.getD []) = [] then st.item_path.getD [] else st.url.getD []

/-- The translation target `f"delete of {url or item_path}"`. -/
def deleteTarget (st : DocState) : Str :=
  ("delete of ").data ++ [sq] ++ urlOrPath st ++ [sq]

/-- The translation target `f"download of {url or item_path}"`. -/
def downloadTarget (st : DocState) : Str :=
  ("download of ").data ++ [sq] ++ urlOrPath st ++ [sq]

/-- `delete` (document.py lines 433-453): ensure drive, lazily resolve
the url into an item when unbound, then `DELETE .../items/{item_id}`
expecting 204, translating transport failures. -/
def sp_delete (env : DocEnv) (st : DocState) :
    List DStep × Except DomainError DocState :=
  match bindPhase env st with
  | (tr, .error e) => (tr, .error e)
  | (tr, .ok (d, st2)) =>
    match (graph_request ("DELETE").data (itemUrl env d st2)
        (some (.single 204)) none false
        (env.net .DELETE (itemUrl env d st2))).result with
    | .ok _ => (tr ++ [.graphCall .DELETE (itemUrl env d st2) [204]], .ok st2)
    | .error e =>
      (tr ++ [.graphCall .DELETE (itemUrl env d st2) [204]],
        .error (translateErr (deleteTarget st2) e))

/-- `download` (document.py lines 375-431): ensure drive, lazily
resolve when unbound, `GET .../content` expecting `(200, 301, 302)`
with `stream=False`; on a raw redirect response follow the `Location`
header with a plain session GET; on another raw response check
404/401/403, raise for any other error status, else return the bytes;
a decoded JSON dict response is a `RuntimeError`. -/
def sp_download (env : DocEnv) (st : DocState) :
    List DStep × Except DomainError Str :=
  match bindPhase env st with
  | (tr, .error e) => (tr, .error e)
  | (tr, .ok (d, st2)) =>
    match (graph_request ("GET").data (contentUrl env d st2)
        (some (.many [200, 301, 302])) none false
        (env.net .GET (contentUrl env d st2))).result with
    | .error e =>
      (tr ++ [.graphCall .GET (contentUrl env d st2) [200, 301, 302]],
        .error (translateErr (downloadTarget st2) e))
    | .ok (.raw r) =>
      if r.status_code = 301 ∨ r.status_code = 302 then
        match r.location with
        | none =>
          (tr ++ [.graphCall .GET (contentUrl env d st2) [200, 301, 302]],
            .error (.notFound
              (("No Location header when downloading ").data ++ urlOrPath st2)))
        | some loc =>
          (tr ++ [.graphCall .GET (contentUrl env d st2) [200, 301, 302],
              .plainGet loc],
            if (env.net .GET loc).status_code = 404 then
              .error (.notFound (("File not found at ").data ++ urlOrPath st2))
            else if (env.net .GET loc).status_code = 401 ∨
                (env.net .GET loc).status_code = 403 then
              .error (.permissionDenied
                (("No permission to follow preauth URL for ").data ++
                  urlOrPath st2))
            else if 400 ≤ (env.net .GET loc).status_code then
              .error (.httpError (env.net .GET loc).status_code)
            else .ok (env.net .GET loc).content)
      else
        (tr ++ [.graphCall .GET (contentUrl env d st2) [200, 301, 302]],
          if r.status_code = 404 then
            .error (.notFound (("File not found at ").data ++ urlOrPath st2))
          else if r.status_code = 401 ∨ r.status_code = 403 then
            .error (.permissionDenied
              (("No permission to download ").data ++ urlOrPath st2))
          else if 400 ≤ r.status_code then
            .error (.httpError r.status_code)
          else .ok r.content)
    | .ok (.json _) =>
      (tr ++ [.graphCall .GET (contentUrl env d st2) [200, 301, 302]],
        .error (.runtimeError ("Unexpected response type while downloading.").data))

/-- The strict unbound message of `get_preauth_url`. -/
def preauthUnboundMsg : Str :=
  ("File must be uploaded or loaded before calling get_preauth_url().").data

/-- The strict unbound message of `get_preview_url`. -/
def previewUnboundMsg : Str :=
  ("File must be uploaded or loaded before calling get_preview_url().").data

/-- `get_preauth_url` (document.py lines 483-518): fail fast with a
not-found error when no item id is bound (no resolution is attempted);
otherwise ensure the drive id, issue a plain redirect-less GET on the
content URL, require a 301/302 and return its `Location` header. -/
def get_preauth_url (env : DocEnv) (st : DocState) :
    List DStep × Except DomainError Str :=
  if (st.item_id.getD []) = [] then
    ([], .error (.notFound preauthUnboundMsg))
  else
    match _ensure_drive_id env st with
    | (tr, .error e) => (tr, .error e)
    | (tr, .ok (d, st1)) =>
      if (env.net .GET (contentUrl env d st1)).status_code = 301 ∨
          (env.net .GET (contentUrl env d st1)).status_code = 302 then
        match (env.net .GET (contentUrl env d st1)).location with
        | none =>
          (tr ++ [.plainGet (contentUrl env d st1)],
            .error (.notFound
              ("No Location header found; no preauth URL available.").data))
        | some loc => (tr ++ [.plainGet (contentUrl env d st1)], .ok loc)
      else
        (tr ++ [.plainGet (contentUrl env d st1)],
          .error (.notFound
            (("No redirect returned for preauth URL (status ").data ++
              natStr (env.net .GET (contentUrl env d st1)).status_code ++
              (").").data)))

/-- `get_preview_url` (document.py lines 520-552): fail fast with a
not-found error when no item id is bound (no resolution is attempted);
otherwise ensure the drive id, POST to the preview endpoint, require a
200/201, decode the JSON body and return its non-empty `getUrl`. -/
def get_preview_url (env : DocEnv) (st : DocState) :
    List DStep × Except DomainError Str :=
  if (st.item_id.getD []) = [] then
    ([], .error (.notFound previewUnboundMsg))
  else
    match _ensure_drive_id env st with
    | (tr, .error e) => (tr, .error e)
    | (tr, .ok (d, st1)) =>
      if (env.net .POST (previewEndpointUrl env d st1)).status_code = 200 ∨
          (env.net .POST (previewEndpointUrl env d st1)).status_code = 201 then
        match (env.net .POST (previewEndpointUrl env d st1)).jsonVal with
        | none =>
          (tr ++ [.plainPost (previewEndpointUrl env d st1)],
            .error (.pyError
              ("ValueError: invalid JSON in preview response").data))
        | some data =>
          match jsonGet data (("getUrl").data) with
          | none =>
            (tr ++ [.plainPost (previewEndpointUrl env d st1)],
              .error (.notFound
                ("No getUrl returned from preview endpoint.").data))
          | some p =>
            if p = [] then
              (tr ++ [.plainPost (previewEndpointUrl env d st1)],
                .error (.notFound
                  ("No getUrl returned from preview endpoint.").data))
            else (tr ++ [.plainPost (previewEndpointUrl env d st1)], .ok p)
      else
        (tr ++ [.plainPost (previewEndpointUrl env d st1)],
          .error (.notFound
            (("Preview endpoint failed (status ").data ++
              natStr (env.net .POST (previewEndpointUrl env d st1)).status_code ++
              ("): ").data ++
              (env.net .POST (previewEndpointUrl env d st1)).text)))

/-- A transport oracle answering every request with a 200 JSON
driveItem whose id is `"i"`. -/
def netItem : Method → Str → HttpResp :=
  fun _ _ =>
    ⟨200, ("application/json").data, [], [], none,
      some [((("id").data : Str), (("i").data : Str))]⟩

/-- A concrete document environment for witnesses. -/
def docEnvW : DocEnv :=
  ⟨("g").data, ("h").data, ("/s").data, ("L").data,
    fun _ => .ok (("d").data), netItem⟩

/-- A concrete unbound-with-url document state for witnesses. -/
def docStW : DocState :=
  ⟨some (("/s/Documents/f.pdf").data), none, none, none, none, none⟩

/-- The bound state `docStW` reaches after a successful resolution. -/
def docStBound : DocState :=
  ⟨some (("/s/Documents/f.pdf").data), some (("Documents").data),
    some (("d").data), some (("i").data), some (("f.pdf").data),
    some [((("id").data : Str), (("i").data : Str))]⟩

end RVms

namespace RVms

/-- **C2.**The error translator maps status 404 to a not-found error,
401 and 403 to a permission error, 409 to a conflict error, and any
other status re-raises the original `GraphError` unchanged (status code
and body preserved); in every case it produces a failure and never a
success value. -/
theorem C2_translate_graph_error (target : Str) (e : GraphError) :
    (e.status_code = 404 →
      ∃ m, translate_graph_error target e = .error (.notFound m))
  ∧ (e.status_code = 401 ∨ e.status_code = 403 →
      ∃ m, translate_graph_error target e = .error (.permissionDenied m))
  ∧ (e.status_code = 409 →
      ∃ m, translate_graph_error target e = .error (.conflict m))
  ∧ (e.status_code ≠ 404 → e.status_code ≠ 401 → e.status_code ≠ 403 →
      e.status_code ≠ 409 →
      translate_graph_error target e = .error (.graph e))
  ∧ (∀ v : Empty, translate_graph_error target e ≠ .ok v) := by
  refine ⟨?_, ?_, ?_, ?_, ?_⟩
  · intro h
    unfold translate_graph_error translateErr
    rw [h]
    exact ⟨_, rfl⟩
  · intro h
    unfold translate_graph_error translateErr
    rcases h with h | h <;> rw [h] <;> exact ⟨_, rfl⟩
  · intro h
    unfold translate_graph_error translateErr
    rw [h]
    exact ⟨_, rfl⟩
  · intro h1 h2 h3 h4
    simp [translate_graph_error, translateErr, h1, h2, h3, h4]
  · intro v
    exact v.elim

/-- Witness for C2 at concrete inputs: a 404 error translates to
not-found, and a 500 error is re-surfaced unchanged. -/
theorem C2_translate_graph_error_witness :
    (∃ m, translate_graph_error [] ⟨[], 404, []⟩ = .error (.notFound m))
  ∧ translate_graph_error [] ⟨[], 500, []⟩ =
      .error (.graph ⟨[], 500, []⟩) := by
  refine ⟨(C2_translate_graph_error [] ⟨[], 404, []⟩).1 rfl, ?_⟩
  exact (C2_translate_graph_error [] ⟨[], 500, []⟩).2.2.2.1
    (by decide) (by decide) (by decide) (by decide)

/-- The dispatcher always sends the effective timeout, whatever branch
it takes. -/
theorem graph_request_sentTimeout (method url : Str)
    (expected : Option ExpStatus) (timeoutArg : Option Nat)
    (stream : Bool) (resp : HttpResp) :
    (graph_request method url expected timeoutArg stream resp).sentTimeout =
      effTimeout timeoutArg := by
  unfold graph_request
  cases hj : resp.jsonVal <;> split <;> (try split) <;> simp [hj]

/-- **C4.** A dispatcher call whose status is not in the expected set
fails with a `GraphError` carrying that status and the raw body; the
accepted statuses default to `{200, 201, 204}` when the caller supplies
none, and the timeout defaults to 15 when the caller supplies none. -/
theorem C4_dispatcher_rejects_and_defaults (method url : Str)
    (expected : Option ExpStatus) (timeoutArg : Option Nat)
    (stream : Bool) (resp : HttpResp)
    (h : resp.status_code ∉ effExpected expected) :
    (graph_request method url expected timeoutArg stream resp).result =
      .error ⟨graphFailMsg method url, resp.status_code, resp.text⟩
  ∧ effExpected none = [200, 201, 204]
  ∧ (graph_request method url expected none stream resp).sentTimeout = 15 := by
  refine ⟨?_, rfl, ?_⟩
  · simp [graph_request, h]
  · rw [graph_request_sentTimeout]
    rfl

/-- Witness for C4 at a concrete call: a 500 response against the
default expected set fails with status 500 and its body. -/
theorem C4_dispatcher_rejects_and_defaults_witness :
    (graph_request [] [] none none false
        ⟨500, [], ('x' :: []), [], none, none⟩).result =
      .error ⟨graphFailMsg [] [], 500, ('x' :: [])⟩
  ∧ effExpected none = [200, 201, 204]
  ∧ (graph_request [] [] none none false
        ⟨500, [], ('x' :: []), [], none, none⟩).sentTimeout = 15 :=
  C4_dispatcher_rejects_and_defaults [] [] none none false
    ⟨500, [], ('x' :: []), [], none, none⟩ (by decide)

/-- **C5.** On an accepted status: if the status is 204, or the caller
requested a streamed transfer, or the content type is not JSON, the raw
response handle is returned; otherwise the parsed JSON body is
returned, and if parsing fails the raw handle is returned instead — an
accepted response never produces an error. -/
theorem C5_dispatcher_accepted_decoding (method url : Str)
    (expected : Option ExpStatus) (timeoutArg : Option Nat)
    (stream : Bool) (resp : HttpResp)
    (h : resp.status_code ∈ effExpected expected) :
    (resp.status_code = 204 ∨ stream = true ∨ jsonCT resp.content_type = false →
      (graph_request method url expected timeoutArg stream resp).result =
        .ok (.raw resp))
  ∧ (resp.status_code ≠ 204 → stream = false → jsonCT resp.content_type = true →
      (∀ j, resp.jsonVal = some j →
        (graph_request method url expected timeoutArg stream resp).result =
          .ok (.json j))
      ∧ (resp.jsonVal = none →
        (graph_request method url expected timeoutArg stream resp).result =
          .ok (.raw resp)))
  ∧ ∀ e, (graph_request method url expected timeoutArg stream resp).result ≠
      .error e := by
  refine ⟨?_, ?_, ?_⟩
  · intro hc
    simp [graph_request, h, hc]
  · intro h204 hs hct
    constructor
    · intro j hj
      simp [graph_request, h, h204, hs, hct, hj]
    · intro hj
      simp [graph_request, h, h204, hs, hct, hj]
  · intro e
    unfold graph_request
    simp only [h, if_true]
    split
    · simp
    · split <;> simp

/-- Witness for C5 at concrete calls: a 200 JSON response decodes to
its parsed body, and a 200 response with a malformed JSON body returns
the raw handle rather than failing. -/
theorem C5_dispatcher_accepted_decoding_witness :
    (graph_request [] [] none none false
        ⟨200, ("application/json").data, [], [], none, some []⟩).result =
      .ok (.json [])
  ∧ (graph_request [] [] none none false
        ⟨200, ("application/json").data, [], [], none, none⟩).result =
      .ok (.raw ⟨200, ("application/json").data, [], [], none, none⟩) := by
  constructor
  · exact ((C5_dispatcher_accepted_decoding [] [] none none false
      ⟨200, ("application/json").data, [], [], none, some []⟩
      (by decide)).2.1 (by decide) rfl (by decide)).1 [] rfl
  · exact ((C5_dispatcher_accepted_decoding [] [] none none false
      ⟨200, ("application/json").data, [], [], none, none⟩
      (by decide)).2.1 (by decide) rfl (by decide)).2 rfl

/-- One-step unfolding of the chunk loop when the stream is
exhausted or the chunk size is zero. -/
theorem uploadLoop_eq_nil (chunkSize total bytesUploaded remaining : Nat)
    (h : chunkSize = 0 ∨ remaining = 0) :
    uploadLoop chunkSize total bytesUploaded remaining = ([], bytesUploaded) := by
  rw [uploadLoop]
  simp [h]

/-- One-step unfolding of the chunk loop when a chunk is actually
read and sent. -/
theorem uploadLoop_eq_cons (chunkSize total bytesUploaded remaining : Nat)
    (h1 : chunkSize ≠ 0) (h2 : remaining ≠ 0) :
    uploadLoop chunkSize total bytesUploaded remaining =
      (⟨bytesUploaded, min chunkSize remaining,
          natStr (min chunkSize remaining),
          contentRangeStr bytesUploaded (min chunkSize remaining) total,
          [200, 201, 202]⟩ ::
        (uploadLoop chunkSize total (bytesUploaded + min chunkSize remaining)
          (remaining - min chunkSize remaining)).1,
       (uploadLoop chunkSize total (bytesUploaded + min chunkSize remaining)
          (remaining - min chunkSize remaining)).2) := by
  rw [uploadLoop]
  simp [h1, h2]

/-- The final `bytes_uploaded` of the chunk loop is its starting value
plus the number of remaining bytes, whenever the chunk size is
positive. -/
theorem uploadLoop_final (chunkSize total : Nat) (hcs : chunkSize ≠ 0) :
    ∀ remaining bytesUploaded,
      (uploadLoop chunkSize total bytesUploaded remaining).2 =
        bytesUploaded + remaining := by
  intro remaining
  induction remaining using Nat.strong_induction_on with
  | _ remaining ih =>
    intro b
    rcases Nat.eq_zero_or_pos remaining with h | h
    · rw [uploadLoop_eq_nil chunkSize total b remaining (Or.inr h)]
      omega
    · have hl : 1 ≤ min chunkSize remaining := by omega
      have hlt : remaining - min chunkSize remaining < remaining := by omega
      rw [uploadLoop_eq_cons chunkSize total b remaining hcs (by omega)]
      simp only []
      rw [ih _ hlt]
      omega

/-- The chunk lengths of the loop sum to the number of remaining
bytes, whenever the chunk size is positive. -/
theorem uploadLoop_len_sum (chunkSize total : Nat) (hcs : chunkSize ≠ 0) :
    ∀ remaining bytesUploaded,
      (((uploadLoop chunkSize total bytesUploaded remaining).1.map
          ChunkReq.len).sum) = remaining := by
  intro remaining
  induction remaining using Nat.strong_induction_on with
  | _ remaining ih =>
    intro b
    rcases Nat.eq_zero_or_pos remaining with h | h
    · rw [uploadLoop_eq_nil chunkSize total b remaining (Or.inr h)]
      simp [h]
    · have hl : 1 ≤ min chunkSize remaining := by omega
      have hlt : remaining - min chunkSize remaining < remaining := by omega
      rw [uploadLoop_eq_cons chunkSize total b remaining hcs (by omega)]
      simp only [List.map_cons, List.sum_cons]
      rw [ih _ hlt]
      omega

/-- Every chunk PUT the loop issues carries `Content-Length` equal to
the decimal rendering of its chunk length, `Content-Range` equal to
`bytes {start}-{start+len-1}/{total}`, and expects `(200, 201, 202)`. -/
theorem uploadLoop_headers (chunkSize total : Nat) :
    ∀ remaining bytesUploaded req,
      req ∈ (uploadLoop chunkSize total bytesUploaded remaining).1 →
        req.contentLength = natStr req.len
      ∧ req.contentRange = contentRangeStr req.start req.len total
      ∧ req.expected = [200, 201, 202] := by
  intro remaining
  induction remaining using Nat.strong_induction_on with
  | _ remaining ih =>
    intro b req hmem
    rcases Nat.eq_zero_or_pos remaining with h | h
    · rw [uploadLoop_eq_nil chunkSize total b remaining (Or.inr h)] at hmem
      simp at hmem
    · by_cases hcs : chunkSize = 0
      · rw [uploadLoop_eq_nil chunkSize total b remaining (Or.inl hcs)] at hmem
        simp at hmem
      · have hlt : remaining - min chunkSize remaining < remaining := by omega
        rw [uploadLoop_eq_cons chunkSize total b remaining hcs (by omega)] at hmem
        simp only [] at hmem
        rcases List.mem_cons.mp hmem with h1 | h1
        · subst h1
          exact ⟨rfl, rfl, rfl⟩
        · exact ih _ hlt _ req h1

/-- The `start` of the i-th chunk PUT is the loop's starting
`bytes_uploaded` plus the sum of the lengths of the preceding chunks. -/
theorem uploadLoop_start (chunkSize total : Nat) :
    ∀ remaining bytesUploaded i req,
      (uploadLoop chunkSize total bytesUploaded remaining).1.get? i = some req →
      req.start =
        bytesUploaded +
          (((uploadLoop chunkSize total bytesUploaded remaining).1.take i).map
            ChunkReq.len).sum := by
  intro remaining
  induction remaining using Nat.strong_induction_on with
  | _ remaining ih =>
    intro b i req hi
    rcases Nat.eq_zero_or_pos remaining with h | h
    · rw [uploadLoop_eq_nil chunkSize total b remaining (Or.inr h)] at hi
      simp at hi
    · by_cases hcs : chunkSize = 0
      · rw [uploadLoop_eq_nil chunkSize total b remaining (Or.inl hcs)] at hi
        simp at hi
      · have hlt : remaining - min chunkSize remaining < remaining := by omega
        rw [uploadLoop_eq_cons chunkSize total b remaining hcs (by omega)] at hi ⊢
        simp only [] at hi ⊢
        cases i with
        | zero =>
          simp only [List.get?_cons_zero, Option.some.injEq] at hi
          subst hi
          simp
        | succ j =>
          rw [List.get?_cons_succ] at hi
          have hrec := ih _ hlt (b + min chunkSize remaining) j req hi
          simp only [List.take_succ_cons, List.map_cons, List.sum_cons]
          rw [hrec]
          omega

/-- **C1.** In a large-file upload session over a payload of
`file_size` bytes split sequentially into chunks: every chunk PUT
carries `Content-Length` equal to the chunk length and `Content-Range`
equal to `bytes {start}-{start+len-1}/{file_size}` with `start` the sum
of the lengths of all previously sent chunks, each accepted PUT
(expected statuses `{200, 201, 202}`) advances `bytes_uploaded` by the
chunk length, and the loop terminates with `bytes_uploaded` equal to
the sum of the chunk lengths, which is exactly `file_size`. -/
theorem C1_upload_chunk_accounting (chunkSize file_size : Nat)
    (hcs : 0 < chunkSize) :
    (∀ req ∈ (uploadChunkRun chunkSize file_size).1,
        req.contentLength = natStr req.len
      ∧ req.contentRange = contentRangeStr req.start req.len file_size
      ∧ req.expected = [200, 201, 202])
  ∧ (∀ i req, (uploadChunkRun chunkSize file_size).1.get? i = some req →
        req.start =
          (((uploadChunkRun chunkSize file_size).1.take i).map
            ChunkReq.len).sum)
  ∧ (uploadChunkRun chunkSize file_size).2 =
      ((uploadChunkRun chunkSize file_size).1.map ChunkReq.len).sum
  ∧ (uploadChunkRun chunkSize file_size).2 = file_size := by
  have hcs0 : chunkSize ≠ 0 := by omega
  refine ⟨?_, ?_, ?_, ?_⟩
  · intro req hmem
    exact uploadLoop_headers chunkSize file_size file_size 0 req hmem
  · intro i req hi
    simpa using uploadLoop_start chunkSize file_size file_size 0 i req hi
  · unfold uploadChunkRun
    rw [uploadLoop_final chunkSize file_size hcs0 file_size 0,
      uploadLoop_len_sum chunkSize file_size hcs0 file_size 0]
    omega
  · unfold uploadChunkRun
    rw [uploadLoop_final chunkSize file_size hcs0 file_size 0]
    omega

/-- Witness for C1 at a concrete session: chunk size 2 over a payload
of 5 bytes terminates with `bytes_uploaded = 5`. -/
theorem C1_upload_chunk_accounting_witness :
    0 < 2 ∧ (uploadChunkRun 2 5).2 = 5 :=
  ⟨by decide, (C1_upload_chunk_accounting 2 5 (by decide)).2.2.2⟩

/-- **C3 counterexample.** At a payload size of exactly
`4 * 1024 * 1024` bytes, `upload` takes the small-file path and not the
upload-session path: the two paths are not both exercisable at the
threshold boundary. -/
theorem C3_threshold_boundary_counterexample :
    (uploadStrategy [] [] [] (4 * 1024 * 1024)).isSmall = true
  ∧ uploadStrategy [] [] [] (4 * 1024 * 1024) ≠
      .large (createSessionUrl [] [] []) [200] [200, 201, 202] := by
  constructor
  · rfl
  · intro h
    simp [uploadStrategy, small_file_threshold] at h

/-- **C3 (amended).** `upload` selects between exactly two strategies
by the fixed 4 MiB threshold: a payload of size at most the threshold
is sent as a single PUT to `.../root:/{item_path}:/content` with
expected statuses `{200, 201}`, and a payload strictly larger goes
through the upload-session path (`createUploadSession` with expected
status 200, then chunked PUTs with expected `{200, 201, 202}`); at
exactly 4 MiB the small-file path alone is taken. -/
theorem C3_strategy_selection (graphBase driveId itemPath : Str)
    (size : Nat) :
    (size ≤ small_file_threshold →
      uploadStrategy graphBase driveId itemPath size =
        .small (contentPutUrl graphBase driveId itemPath) [200, 201])
  ∧ (small_file_threshold < size →
      uploadStrategy graphBase driveId itemPath size =
        .large (createSessionUrl graphBase driveId itemPath) [200]
          [200, 201, 202])
  ∧ small_file_threshold = 4 * 1024 * 1024 := by
  refine ⟨?_, ?_, rfl⟩
  · intro h
    simp [uploadStrategy, h]
  · intro h
    simp [uploadStrategy, Nat.not_le.mpr h]

/-- Witness for C3 at concrete sizes: an empty payload takes the
small-file path, a payload one byte over the threshold takes the
upload-session path. -/
theorem C3_strategy_selection_witness :
    (0 ≤ small_file_threshold ∧
      uploadStrategy [] [] [] 0 = .small (contentPutUrl [] [] []) [200, 201])
  ∧ (small_file_threshold < small_file_threshold + 1 ∧
      uploadStrategy [] [] [] (small_file_threshold + 1) =
        .large (createSessionUrl [] [] []) [200] [200, 201, 202]) :=
  ⟨⟨by decide, (C3_strategy_selection [] [] [] 0).1 (by decide)⟩,
   ⟨by omega, (C3_strategy_selection [] [] [] (small_file_threshold + 1)).2.1
      (by omega)⟩⟩

/-- `dropWhile` is the identity when the first character does not
satisfy the predicate. -/
theorem dropWhile_eq_self_of_head (p : Char → Bool) (s : Str)
    (h : ∀ c, s.head? = some c → p c = false) : s.dropWhile p = s := by
  cases s with
  | nil => rfl
  | cons a t =>
    have ha := h a rfl
    simp [List.dropWhile_cons, ha]

/-- `pyRStrip` is the identity when the last character does not
satisfy the predicate. -/
theorem pyRStrip_eq_self (p : Char → Bool) (s : Str)
    (h : ∀ c, s.getLast? = some c → p c = false) : pyRStrip p s = s := by
  cases hr : s.reverse with
  | nil =>
    have hs : s = [] := by simpa using congrArg List.reverse hr
    subst hs
    rfl
  | cons c t =>
    have hs : s = t.reverse ++ [c] := by
      rw [← List.reverse_reverse s, hr]
      simp
    have hlast : s.getLast? = some c := by
      rw [hs]
      exact List.getLast?_concat _
    have hc := h c hlast
    have hd : List.dropWhile p (c :: t) = c :: t := by
      simp [List.dropWhile_cons, hc]
    unfold pyRStrip
    rw [hr, hd, ← hr, List.reverse_reverse]

/-- `s.strip()` is the identity when neither end of `s` is
whitespace. -/
theorem stripWs_eq_self (s : Str)
    (h1 : ∀ c, s.head? = some c → c.isWhitespace = false)
    (h2 : ∀ c, s.getLast? = some c → c.isWhitespace = false) :
    stripWs s = s := by
  unfold stripWs pyStrip pyLStrip
  rw [dropWhile_eq_self_of_head _ _ h1]
  exact pyRStrip_eq_self _ _ h2

/-- A list is a prefix, in the executable sense, of itself followed by
anything. -/
theorem isPrefixOf_append (p r : Str) : pyStartsWith p (p ++ r) = true := by
  induction p with
  | nil => simp [pyStartsWith, List.isPrefixOf]
  | cons a as ih =>
    simpa [pyStartsWith, List.isPrefixOf] using ih

/-- Dropping the length of a leading segment recovers the rest. -/
theorem drop_length_append (a b : Str) : (a ++ b).drop a.length = b := by
  induction a with
  | nil => rfl
  | cons x xs ih => simpa using ih

/-- Splitting at the first slash of `l ++ slash :: r` recovers
`(l, r)` when `l` is slash-free. -/
theorem pySplitOnce_append (l r : Str) (h : '/' ∉ l) :
    pySplitOnce '/' (l ++ '/' :: r) = some (l, r) := by
  induction l with
  | nil => simp [pySplitOnce]
  | cons a as ih =>
    have ha : a ≠ '/' := fun hc => h (hc ▸ List.mem_cons_self a as)
    have has : '/' ∉ as := fun hc => h (List.mem_cons_of_mem a hc)
    simp [pySplitOnce, ha, ih has]

/-- **C6 counterexample.** The claim quantifies over every non-empty
item path with no slash prefix; for the item path `"a/"` (no leading
slash, non-empty) the builder strips the trailing slash, so parsing the
built URL returns `"a"` rather than the original `"a/"` — the parser is
not a left inverse of the builder on that input. -/
theorem C6_url_roundtrip_counterexample :
    ('/' ∉ ("Documents").data)
  ∧ ('a' :: '/' :: []) ≠ ([] : Str)
  ∧ pyStartsWith ['/'] ('a' :: '/' :: []) = false
  ∧ _parse_server_relative_url [] (("sites/Finance").data)
      (_server_relative_from_path (("sites/Finance").data)
        (("Documents").data) ('a' :: '/' :: [])) =
      .ok (("Documents").data, ('a' :: []))
  ∧ ('a' :: []) ≠ ('a' :: '/' :: []) := by
  refine ⟨by decide, by decide, by decide, ?_, by decide⟩
  decide

/-- **C6 (amended).** For every library name without a slash and every
item path with no leading or trailing slash (`strip`-fixed) and no
trailing whitespace, parsing the site-relative URL built from
`(library, item_path)` yields back exactly `(library, item_path)`:
the parser is a left inverse of the builder on such inputs. -/
theorem C6_url_roundtrip (hostname site_path library_name item_path : Str)
    (hlib : '/' ∉ library_name)
    (hstrip : stripSlash item_path = item_path)
    (hws : ∀ c, item_path.getLast? = some c → c.isWhitespace = false) :
    _parse_server_relative_url hostname site_path
      (_server_relative_from_path site_path library_name item_path) =
      .ok (library_name, item_path) := by
  have hb : _server_relative_from_path site_path library_name item_path =
      (['/'] ++ lstripSlash site_path ++ ['/']) ++
        (library_name ++ '/' :: item_path) := by
    unfold _server_relative_from_path
    rw [hstrip]
    simp [List.append_assoc]
  have hcons : (['/'] ++ lstripSlash site_path ++ ['/']) ++
      (library_name ++ '/' :: item_path) =
      '/' :: (lstripSlash site_path ++ '/' ::
        (library_name ++ '/' :: item_path)) := by
    simp [List.append_assoc]
  have h1 : ∀ c, ((['/'] ++ lstripSlash site_path ++ ['/']) ++
      (library_name ++ '/' :: item_path)).head? = some c →
      c.isWhitespace = false := by
    intro c hc
    rw [hcons] at hc
    simp at hc
    subst hc
    decide
  have h2 : ∀ c, ((['/'] ++ lstripSlash site_path ++ ['/']) ++
      (library_name ++ '/' :: item_path)).getLast? = some c →
      c.isWhitespace = false := by
    intro c hc
    by_cases hip : item_path = []
    · subst hip
      have hform : (['/'] ++ lstripSlash site_path ++ ['/']) ++
          (library_name ++ '/' :: ([] : Str)) =
          ((['/'] ++ lstripSlash site_path ++ ['/']) ++ library_name) ++
            ['/'] := by
        simp [List.append_assoc]
      rw [hform, List.getLast?_concat] at hc
      cases hc
      decide
    · have hform : (['/'] ++ lstripSlash site_path ++ ['/']) ++
          (library_name ++ '/' :: item_path) =
          (((['/'] ++ lstripSlash site_path ++ ['/']) ++ library_name) ++
            ['/']) ++ item_path := by
        simp [List.append_assoc]
      rw [hform, List.getLast?_append_of_ne_nil _ hip] at hc
      exact hws c hc
  have hsw : stripWs ((['/'] ++ lstripSlash site_path ++ ['/']) ++
      (library_name ++ '/' :: item_path)) =
      (['/'] ++ lstripSlash site_path ++ ['/']) ++
        (library_name ++ '/' :: item_path) :=
    stripWs_eq_self _ h1 h2
  have hstart1 : pyStartsWith ['/'] ((['/'] ++ lstripSlash site_path ++ ['/']) ++
      (library_name ++ '/' :: item_path)) = true := by
    rw [hcons]
    have := isPrefixOf_append ['/']
      (lstripSlash site_path ++ '/' :: (library_name ++ '/' :: item_path))
    simpa using this
  have hstart2 : pyStartsWith (['/'] ++ lstripSlash site_path ++ ['/'])
      ((['/'] ++ lstripSlash site_path ++ ['/']) ++
        (library_name ++ '/' :: item_path)) = true :=
    isPrefixOf_append _ _
  have hdrop : ((['/'] ++ lstripSlash site_path ++ ['/']) ++
      (library_name ++ '/' :: item_path)).drop
        (['/'] ++ lstripSlash site_path ++ ['/']).length =
      library_name ++ '/' :: item_path :=
    drop_length_append _ _
  have hsplit := pySplitOnce_append library_name item_path hlib
  rw [hb]
  unfold _parse_server_relative_url
  rw [hsw, hstart1, hstart2, hdrop, hsplit]
  simp

/-- Witness for C6 at a concrete input: the URL built for library
`Documents` and item path `a/b.pdf` parses back to exactly that
pair. -/
theorem C6_url_roundtrip_witness :
    ('/' ∉ ("Documents").data)
  ∧ stripSlash (("a/b.pdf").data) = ("a/b.pdf").data
  ∧ (∀ c, (("a/b.pdf").data).getLast? = some c → c.isWhitespace = false)
  ∧ _parse_server_relative_url (("h.example").data) (("/sites/Finance").data)
      (_server_relative_from_path (("/sites/Finance").data)
        (("Documents").data) (("a/b.pdf").data)) =
      .ok (("Documents").data, ("a/b.pdf").data) :=
  ⟨by decide, by decide, by decide,
    C6_url_roundtrip (("h.example").data) (("/sites/Finance").data)
      (("Documents").data) (("a/b.pdf").data) (by decide) (by decide)
      (by decide)⟩

/-- `pyStrip` is the identity when neither end satisfies the strip
predicate. -/
theorem pyStrip_eq_self (p : Char → Bool) (s : Str)
    (h1 : ∀ c, s.head? = some c → p c = false)
    (h2 : ∀ c, s.getLast? = some c → p c = false) : pyStrip p s = s := by
  unfold pyStrip pyLStrip
  rw [dropWhile_eq_self_of_head _ _ h1]
  exact pyRStrip_eq_self _ _ h2

/-- `pySplit` never yields an empty list of pieces. -/
theorem pySplit_ne_nil (c : Char) (s : Str) : pySplit c s ≠ [] := by
  induction s with
  | nil => simp [pySplit]
  | cons a t ih =>
    unfold pySplit
    split
    · simp
    · split
      · simp
      · simp

/-- Splitting a string that does not contain the separator yields the
string as the single piece. -/
theorem pySplit_no_sep (c : Char) (s : Str) (h : c ∉ s) :
    pySplit c s = [s] := by
  induction s with
  | nil => rfl
  | cons a t ih =>
    have ha : ¬a = c := fun hc => h (hc ▸ List.mem_cons_self a t)
    have ht := ih fun hc => h (List.mem_cons_of_mem a hc)
    unfold pySplit
    rw [if_neg ha, ht]

/-- The `cons` unfolding of `pySplit`. -/
theorem pySplit_cons (c a : Char) (t : Str) :
    pySplit c (a :: t) =
      if a = c then [] :: pySplit c t
      else match pySplit c t with
        | [] => [[a]]
        | piece :: more => (a :: piece) :: more := by
  rw [pySplit]

/-- The empty-list equation of `pyJoin`. -/
theorem pyJoin_nil (sep : Str) : pyJoin sep [] = [] := by
  rw [pyJoin]

/-- The singleton equation of `pyJoin`. -/
theorem pyJoin_single (sep x : Str) : pyJoin sep [x] = x := by
  rw [pyJoin]

/-- The two-or-more equation of `pyJoin` with a slash separator. -/
theorem pyJoin_cons_cons (x y : Str) (t : List Str) :
    pyJoin ['/'] (x :: y :: t) = x ++ '/' :: pyJoin ['/'] (y :: t) := by
  rw [pyJoin]
  simp [List.append_assoc]

/-- Splitting peels off a separator-free leading piece. -/
theorem pySplit_sep_append (c : Char) (x r : Str) (h : c ∉ x) :
    pySplit c (x ++ c :: r) = x :: pySplit c r := by
  induction x with
  | nil =>
    rw [List.nil_append, pySplit_cons, if_pos rfl]
  | cons a x ih =>
    have ha : ¬a = c := fun hc => h (hc ▸ List.mem_cons_self a x)
    have hx := ih fun hc => h (List.mem_cons_of_mem a hc)
    rw [List.cons_append, pySplit_cons, if_neg ha, hx]

/-- No piece of a split contains the separator. -/
theorem pySplit_sep_not_mem (c : Char) (x : Str) :
    ∀ s ∈ pySplit c x, c ∉ s := by
  induction x with
  | nil =>
    intro s hs
    simp [pySplit] at hs
    subst hs
    simp
  | cons a t ih =>
    intro s hs
    unfold pySplit at hs
    by_cases hac : a = c
    · rw [if_pos hac] at hs
      rcases List.mem_cons.mp hs with h1 | h1
      · subst h1
        simp
      · exact ih s h1
    · rw [if_neg hac] at hs
      cases hsp : pySplit c t with
      | nil => exact absurd hsp (pySplit_ne_nil c t)
      | cons piece more =>
        rw [hsp] at hs
        rcases List.mem_cons.mp hs with h1 | h1
        · subst h1
          intro hmem
          rcases List.mem_cons.mp hmem with h2 | h2
          · exact hac h2.symm
          · exact ih piece (hsp ▸ List.mem_cons_self _ _) h2
        · exact ih s (hsp ▸ List.mem_cons_of_mem _ h1)

/-- Splitting a join recovers the segments, for slash-free segments. -/
theorem pySplit_pyJoin (l : List Str) (h : ∀ s ∈ l, '/' ∉ s)
    (hne : l ≠ []) : pySplit '/' (pyJoin ['/'] l) = l := by
  induction l with
  | nil => exact absurd rfl hne
  | cons x xs ih =>
    cases xs with
    | nil => exact pySplit_no_sep '/' x (h x (List.mem_cons_self x []))
    | cons y t =>
      have hx : '/' ∉ x := h x (List.mem_cons_self _ _)
      have hrest : ∀ s ∈ y :: t, '/' ∉ s :=
        fun s hs => h s (List.mem_cons_of_mem x hs)
      rw [pyJoin_cons_cons, pySplit_sep_append '/' x _ hx, ih hrest (by simp)]

/-- Joining after appending one segment appends it after a slash. -/
theorem pyJoin_concat (l : List Str) (x : Str) (hne : l ≠ []) :
    pyJoin ['/'] (l ++ [x]) = pyJoin ['/'] l ++ '/' :: x := by
  induction l with
  | nil => exact absurd rfl hne
  | cons a xs ih =>
    cases xs with
    | nil =>
      rw [show ([a] : List Str) ++ [x] = [a, x] from rfl,
        pyJoin_cons_cons, pyJoin_single, pyJoin_single]
    | cons b t =>
      have hih := ih (by simp)
      simp only [List.cons_append] at hih ⊢
      rw [pyJoin_cons_cons, hih, pyJoin_cons_cons]
      simp [List.append_assoc]

/-- A join of non-empty segments is non-empty. -/
theorem pyJoin_ne_nil (l : List Str) (h : ∀ s ∈ l, s ≠ [])
    (hne : l ≠ []) : pyJoin ['/'] l ≠ [] := by
  cases l with
  | nil => exact absurd rfl hne
  | cons x xs =>
    cases xs with
    | nil => exact h x (List.mem_cons_self _ _)
    | cons y t => simp [pyJoin]

/-- The head of a join of segments whose first segment is a cons. -/
theorem pyJoin_cons_head (a : Char) (x : Str) (xs : List Str) :
    (pyJoin ['/'] ((a :: x) :: xs)).head? = some a := by
  cases xs with
  | nil =>
    rw [pyJoin_single]
    rfl
  | cons y t =>
    rw [pyJoin_cons_cons]
    rfl

/-- A non-empty list keeps its head when something is appended. -/
theorem head?_append_some (l r : Str) (a : Char) (h : l.head? = some a) :
    (l ++ r).head? = some a := by
  cases l with
  | nil => simp at h
  | cons x t =>
    simp at h
    subst h
    rfl

/-- The last character of a join of non-empty slash-free segments is
not a slash. -/
theorem pyJoin_last_ne_slash (l : List Str)
    (h : ∀ s ∈ l, s ≠ [] ∧ '/' ∉ s) :
    ∀ c, (pyJoin ['/'] l).getLast? = some c → (c == '/') = false := by
  induction l with
  | nil =>
    intro c hc
    rw [pyJoin_nil] at hc
    simp at hc
  | cons x xs ih =>
    intro c hc
    cases xs with
    | nil =>
      obtain ⟨hxne, hxs⟩ := h x (List.mem_cons_self _ _)
      rw [pyJoin_single] at hc
      have hcmem : c ∈ x := List.mem_of_mem_getLast? (Option.mem_def.mpr hc)
      have : c ≠ '/' := fun h2 => hxs (h2 ▸ hcmem)
      simpa using this
    | cons y t =>
      have hJne : pyJoin ['/'] (y :: t) ≠ [] :=
        pyJoin_ne_nil _ (fun s hs => (h s (List.mem_cons_of_mem _ hs)).1)
          (by simp)
      rw [pyJoin_cons_cons, List.getLast?_append_of_ne_nil _ (by simp)] at hc
      have hsplit2 : ('/' :: pyJoin ['/'] (y :: t)).getLast? =
          (pyJoin ['/'] (y :: t)).getLast? := by
        rw [show ('/' :: pyJoin ['/'] (y :: t)) =
            ['/'] ++ pyJoin ['/'] (y :: t) from rfl,
          List.getLast?_append_of_ne_nil _ hJne]
      rw [hsplit2] at hc
      exact ih (fun s hs => h s (List.mem_cons_of_mem _ hs)) c hc

/-- The accumulated `current_path` string of the source loop agrees
with the join of the segment prefix the spec walk tracks. -/
theorem folder_cur_eq (done : List Str) (part : Str)
    (hd : ∀ s ∈ done, s ≠ [] ∧ '/' ∉ s) (hp : part ≠ [])
    (hps : '/' ∉ part) :
    stripSlash (pyJoin ['/'] done ++ '/' :: part) =
      pyJoin ['/'] (done ++ [part]) := by
  obtain ⟨a, x, rfl⟩ : ∃ a x, part = a :: x := by
    cases part with
    | nil => exact absurd rfl hp
    | cons a x => exact ⟨a, x, rfl⟩
  have hane : a ≠ '/' :=
    fun h2 => hps (List.mem_cons.mpr (Or.inl h2.symm))
  have hH : ∀ c, (a :: x).head? = some c → ((c == '/') = false) := by
    intro c hcc
    rw [List.head?_cons] at hcc
    injection hcc with hcc
    rw [← hcc]
    simpa using hane
  have hR : ∀ c, (a :: x).getLast? = some c → ((c == '/') = false) := by
    intro c hcc
    have hcmem : c ∈ a :: x := List.mem_of_mem_getLast? (Option.mem_def.mpr hcc)
    have : c ≠ '/' := fun h2 => hps (h2 ▸ hcmem)
    simpa using this
  cases done with
  | nil =>
    have h1 : List.dropWhile (fun c => c == '/') ('/' :: a :: x) = a :: x := by
      rw [List.dropWhile_cons, if_pos (by simp)]
      exact dropWhile_eq_self_of_head _ _ hH
    have hL : pyJoin ['/'] ([] : List Str) ++ '/' :: a :: x = '/' :: a :: x := by
      rw [pyJoin_nil, List.nil_append]
    have hRr : pyJoin ['/'] (([] : List Str) ++ [a :: x]) = a :: x := by
      rw [List.nil_append, pyJoin_single]
    rw [hL, hRr]
    unfold stripSlash pyStrip pyLStrip
    rw [h1]
    exact pyRStrip_eq_self _ _ hR
  | cons d ds =>
    obtain ⟨b, d0, rfl⟩ : ∃ b d0, d = b :: d0 := by
      have := (hd d (List.mem_cons_self _ _)).1
      cases d with
      | nil => exact absurd rfl this
      | cons b d0 => exact ⟨b, d0, rfl⟩
    have hbne : b ≠ '/' :=
      fun h2 => (hd _ (List.mem_cons_self _ _)).2 (List.mem_cons.mpr (Or.inl h2.symm))
    have hhead : ∀ c, (pyJoin ['/'] ((b :: d0) :: ds) ++ '/' :: a :: x).head? =
        some c → ((c == '/') = false) := by
      intro c hcc
      rw [head?_append_some _ _ b (pyJoin_cons_head b d0 ds)] at hcc
      injection hcc with hcc
      rw [← hcc]
      simpa using hbne
    have hlast : ∀ c, (pyJoin ['/'] ((b :: d0) :: ds) ++ '/' :: a :: x).getLast? =
        some c → ((c == '/') = false) := by
      intro c hcc
      rw [List.getLast?_append_of_ne_nil _ (by simp)] at hcc
      have hsplit2 : ('/' :: a :: x).getLast? = (a :: x).getLast? := by
        rw [show ('/' :: a :: x) = ['/'] ++ (a :: x) from rfl,
          List.getLast?_append_of_ne_nil _ (by simp)]
      rw [hsplit2] at hcc
      exact hR c hcc
    have hid : stripSlash (pyJoin ['/'] ((b :: d0) :: ds) ++ '/' :: a :: x) =
        pyJoin ['/'] ((b :: d0) :: ds) ++ '/' :: a :: x :=
      pyStrip_eq_self _ _ hhead hlast
    rw [hid, pyJoin_concat _ _ (by simp)]

/-- The parent path the source reconstructs by split/dropLast/join is
the join of the segment prefix without its last segment. -/
theorem folder_parent_eq (done : List Str) (part : Str)
    (hd : ∀ s ∈ done, '/' ∉ s) (hps : '/' ∉ part) :
    pyJoin ['/'] ((pySplit '/' (pyJoin ['/'] (done ++ [part]))).dropLast) =
      pyJoin ['/'] done := by
  have hall : ∀ s ∈ done ++ [part], '/' ∉ s := by
    intro s hs
    rcases List.mem_append.mp hs with h1 | h1
    · exact hd s h1
    · simp at h1
      subst h1
      exact hps
  rw [pySplit_pyJoin (done ++ [part]) hall (by simp), List.dropLast_concat]

/-- The source string-accumulating walk agrees step for step with the
specification-level segment walk. -/
theorem ensureWalk_agree (net : Method → Str → HttpResp)
    (graphBase driveId : Str) :
    ∀ (parts done : List Str),
      (∀ s ∈ parts, s ≠ [] ∧ '/' ∉ s) →
      (∀ s ∈ done, s ≠ [] ∧ '/' ∉ s) →
      ensureLoopImpl net graphBase driveId (pyJoin ['/'] done) parts =
        ensureFolderSpecWalk net graphBase driveId done parts := by
  intro parts
  induction parts with
  | nil =>
    intro done _ _
    rfl
  | cons part rest ih =>
    intro done hp hd
    obtain ⟨hpne, hpsl⟩ := hp part (List.mem_cons_self _ _)
    have hrest : ∀ s ∈ rest, s ≠ [] ∧ '/' ∉ s :=
      fun s hs => hp s (List.mem_cons_of_mem _ hs)
    have hdone2 : ∀ s ∈ done ++ [part], s ≠ [] ∧ '/' ∉ s := by
      intro s hs
      rcases List.mem_append.mp hs with h1 | h1
      · exact hd s h1
      · simp at h1
        subst h1
        exact ⟨hpne, hpsl⟩
    have hcur := folder_cur_eq done part hd hpne hpsl
    have hparent := folder_parent_eq done part (fun s hs => (hd s hs).2) hpsl
    have hrec := ih (done ++ [part]) hrest hdone2
    simp only [ensureLoopImpl, ensureFolderSpecWalk]
    rw [hcur, hparent, hrec]

/-- **C7.** `ensure_folder_path` behaves exactly as the specification
walk `ensureFolderSpecWalk` describes: it splits the folder path into
segments and walks them left to right accumulating a prefix, probing
each prefix with a GET, creating exactly a missing segment (404) as a
child of its immediate parent via a POST to `.../children` with body
`{name, folder: {}, conflictBehavior: "fail"}` expecting 201, and
raising the translated error immediately on any non-404 probe failure
or any create failure, with no later segment probed or created. -/
theorem C7_ensure_folder_path (net : Method → Str → HttpResp)
    (graphBase driveId folder_path : Str)
    (h : ∀ s ∈ pySplit '/' (stripSlash folder_path), s ≠ []) :
    _ensure_folder_path net graphBase driveId folder_path =
      ensure_folder_spec net graphBase driveId folder_path := by
  unfold _ensure_folder_path ensure_folder_spec
  by_cases hfp : stripSlash folder_path = []
  · rw [if_pos hfp, if_pos hfp]
  · rw [if_neg hfp, if_neg hfp]
    have hsegs : ∀ s ∈ pySplit '/' (stripSlash folder_path),
        s ≠ [] ∧ '/' ∉ s := by
      intro s hs
      exact ⟨h s hs, pySplit_sep_not_mem '/' _ s hs⟩
    have hagree := ensureWalk_agree net graphBase driveId
      (pySplit '/' (stripSlash folder_path)) [] hsegs (by simp)
    rw [show pyJoin ['/'] ([] : List Str) = [] from rfl] at hagree
    rw [hagree]

/-- Witness for C7 at a concrete input: the two-segment path `a/b`
against an all-200 transport (every probe found, nothing created). -/
theorem C7_ensure_folder_path_witness :
    (∀ s ∈ pySplit '/' (stripSlash (("a/b").data)), s ≠ [])
  ∧ _ensure_folder_path net200 [] [] (("a/b").data) =
      ensure_folder_spec net200 [] [] (("a/b").data) :=
  ⟨by decide, C7_ensure_folder_path net200 [] [] (("a/b").data) (by decide)⟩

/-- **C8.** On a cache miss, `get_drive_id` over a drive listing with
no name match fails with a not-found error whose message is the
rendered diagnostic listing all available drive names (joined by a
comma and space); when a match exists its id is returned and memoized
under the queried library name. -/
theorem C8_get_drive_id (cache : List (Str × Str)) (drives : List DriveInfo)
    (hostname spNorm : Str) (library_name : Option Str)
    (defaultLibrary : Str)
    (hmiss : jsonGet cache (effLibrary library_name defaultLibrary) = none) :
    (firstDriveMatch drives (effLibrary library_name defaultLibrary) = none →
      get_drive_id cache drives hostname spNorm library_name defaultLibrary =
        .error (.notFound (driveNotFoundMsg hostname spNorm
          (effLibrary library_name defaultLibrary) drives)))
  ∧ (∀ i, firstDriveMatch drives (effLibrary library_name defaultLibrary) =
        some i →
      get_drive_id cache drives hostname spNorm library_name defaultLibrary =
        .ok (i, (effLibrary library_name defaultLibrary, i) :: cache)
      ∧ jsonGet ((effLibrary library_name defaultLibrary, i) :: cache)
          (effLibrary library_name defaultLibrary) = some i) := by
  constructor
  · intro hnone
    simp [get_drive_id, hmiss, hnone]
  · intro i hi
    constructor
    · simp [get_drive_id, hmiss, hi]
    · simp [jsonGet, List.find?]

/-- Witness for C8 at the claim's concrete example: drives named
`Documents` and `Archive` queried with `Nope` fail with a message whose
text contains `Documents, Archive`; a query for `Archive` returns its
id and memoizes it. -/
theorem C8_get_drive_id_witness :
    jsonGet [] (effLibrary (some (("Nope").data)) (("Documents").data)) = none
  ∧ get_drive_id [] [⟨("A").data, ("Documents").data⟩,
        ⟨("B").data, ("Archive").data⟩]
      (("h.example").data) (("/sites/F").data) (some (("Nope").data))
      (("Documents").data) =
      .error (.notFound (driveNotFoundMsg (("h.example").data)
        (("/sites/F").data) (("Nope").data)
        [⟨("A").data, ("Documents").data⟩, ⟨("B").data, ("Archive").data⟩]))
  ∧ containsSub (("Documents, Archive").data)
      (driveNotFoundMsg (("h.example").data) (("/sites/F").data)
        (("Nope").data)
        [⟨("A").data, ("Documents").data⟩,
          ⟨("B").data, ("Archive").data⟩]) = true
  ∧ get_drive_id [] [⟨("A").data, ("Documents").data⟩,
        ⟨("B").data, ("Archive").data⟩]
      (("h.example").data) (("/sites/F").data) (some (("Archive").data))
      (("Documents").data) =
      .ok (("B").data, [((("Archive").data : Str), (("B").data : Str))]) := by
  refine ⟨by decide, ?_, by decide, ?_⟩
  · exact (C8_get_drive_id [] [⟨("A").data, ("Documents").data⟩,
      ⟨("B").data, ("Archive").data⟩] (("h.example").data)
      (("/sites/F").data) (some (("Nope").data)) (("Documents").data)
      (by decide)).1 (by decide)
  · exact ((C8_get_drive_id [] [⟨("A").data, ("Documents").data⟩,
      ⟨("B").data, ("Archive").data⟩] (("h.example").data)
      (("/sites/F").data) (some (("Archive").data)) (("Documents").data)
      (by decide)).2 (("B").data) (by decide)).1

/-- Taking one element beyond a leading segment keeps that segment and
the next element only. -/
theorem take_append_cons {α : Type} (l : List α) (a : α) (r : List α) :
    (l ++ a :: r).take (l.length + 1) = l ++ [a] := by
  induction l with
  | nil => simp
  | cons x xs ih => simp [ih]

/-- `_ensure_drive_id` never changes the bound item id. -/
theorem ensure_drive_preserves_item (env : DocEnv) (st : DocState)
    (tr : List DStep) (d : Str) (st1 : DocState)
    (h : _ensure_drive_id env st = (tr, .ok (d, st1))) :
    st1.item_id = st.item_id := by
  unfold _ensure_drive_id at h
  split at h
  · cases ho : env.drive_oracle (library_name env st) with
    | ok dd =>
      rw [ho] at h
      simp at h
      obtain ⟨-, -, h3⟩ := h
      rw [← h3]
    | error e =>
      rw [ho] at h
      simp at h
  · simp at h
    obtain ⟨-, -, h3⟩ := h
    rw [← h3]

/-- `_resolve_item_by_path` issues exactly one resolution step. -/
theorem resolve_item_trace (env : DocEnv) (st : DocState) (d ip : Str) :
    (_resolve_item_by_path env st d ip).1 =
      [DStep.resolveItem d (stripSlash ip)] := by
  unfold _resolve_item_by_path
  split <;> rfl

/-- A successful `_ensure_item_from_url` on a handle with no item id
performs a path resolution: its trace contains a `resolveItem` step. -/
theorem ensure_item_resolves (env : DocEnv) (st : DocState)
    (tr : List DStep) (st2 : DocState)
    (hnone : st.item_id = none)
    (h : _ensure_item_from_url env st = (tr, .ok st2)) :
    ∃ dd pp, DStep.resolveItem dd pp ∈ tr := by
  unfold _ensure_item_from_url at h
  rw [hnone] at h
  simp only [Option.getD_none, ne_eq, not_true_eq_false, if_false] at h
  split at h
  · simp at h
  · split at h
    · simp at h
    · rename_i lib ipath heq
      split at h
      · simp at h
      · rename_i trA d stA hdr
        split at h
        all_goals
          first
          | (rename_i trB ret hres
             split at h
             all_goals
               first
               | (rename_i iid hiid
                  have htr : trA ++ trB = tr := congrArg Prod.fst h
                  have hb : trB = [DStep.resolveItem d (stripSlash ipath)] := by
                    have h2 := congrArg Prod.fst hres
                    rw [resolve_item_trace] at h2
                    exact h2.symm
                  have hmem : DStep.resolveItem d (stripSlash ipath) ∈
                      trA ++ trB := by
                    rw [hb]
                    exact List.mem_append_right _ (List.mem_cons_self _ _)
                  exact ⟨d, stripSlash ipath, htr ▸ hmem⟩)
               | simp at h)
          | simp at h

/-- A successful bind phase on a handle with no item id performs a path
resolution: its trace contains a `resolveItem` step. -/
theorem bindPhase_resolves (env : DocEnv) (st : DocState)
    (tr : List DStep) (d : Str) (st2 : DocState)
    (hnone : st.item_id = none)
    (h : bindPhase env st = (tr, .ok (d, st2))) :
    ∃ dd pp, DStep.resolveItem dd pp ∈ tr := by
  unfold bindPhase at h
  split at h
  · simp at h
  · rename_i tr0 d0 st1 hdr
    have hst1 : st1.item_id = none :=
      (ensure_drive_preserves_item env st tr0 d0 st1 hdr).trans hnone
    rw [hst1] at h
    simp only [Option.getD_none, if_true] at h
    split at h
    · simp at h
    · rename_i tr2 st2a hitem
      have htr : tr0 ++ tr2 = tr := congrArg Prod.fst h
      obtain ⟨dd, pp, hm⟩ := ensure_item_resolves env st1 tr2 st2a hst1 hitem
      exact ⟨dd, pp, htr ▸ List.mem_append_right _ hm⟩

/-- After a successful bind phase, `delete` issues exactly one more
request: the DELETE on the resolved item expecting 204. -/
theorem sp_delete_trace_ok (env : DocEnv) (st : DocState) (d : Str)
    (st2 : DocState) (hok : (bindPhase env st).2 = .ok (d, st2)) :
    (sp_delete env st).1 =
      (bindPhase env st).1 ++
        [DStep.graphCall .DELETE (itemUrl env d st2) [204]] := by
  rcases hE : bindPhase env st with ⟨tr, res⟩
  rw [hE] at hok
  have hres : res = .ok (d, st2) := hok
  subst hres
  unfold sp_delete
  rw [hE]
  cases hg : (graph_request ("DELETE").data (itemUrl env d st2)
      (some (.single 204)) none false
      (env.net .DELETE (itemUrl env d st2))).result with
  | ok v => simp [hg]
  | error e => simp [hg]

/-- A failed bind phase makes `delete` return the bind trace and error
unchanged: no DELETE is issued. -/
theorem sp_delete_trace_err (env : DocEnv) (st : DocState)
    (e : DomainError) (herr : (bindPhase env st).2 = .error e) :
    sp_delete env st = ((bindPhase env st).1, .error e) := by
  rcases hE : bindPhase env st with ⟨tr, res⟩
  rw [hE] at herr
  have hres : res = .error e := herr
  subst hres
  unfold sp_delete
  rw [hE]

/-- After a successful bind phase, the next request `download` issues
is the content GET expecting `(200, 301, 302)`. -/
theorem sp_download_trace_ok (env : DocEnv) (st : DocState) (d : Str)
    (st2 : DocState) (hok : (bindPhase env st).2 = .ok (d, st2)) :
    (sp_download env st).1.take ((bindPhase env st).1.length + 1) =
      (bindPhase env st).1 ++
        [DStep.graphCall .GET (contentUrl env d st2) [200, 301, 302]] := by
  rcases hE : bindPhase env st with ⟨tr, res⟩
  rw [hE] at hok
  have hres : res = .ok (d, st2) := hok
  subst hres
  unfold sp_download
  rw [hE]
  cases hg : (graph_request ("GET").data (contentUrl env d st2)
      (some (.many [200, 301, 302])) none false
      (env.net .GET (contentUrl env d st2))).result with
  | error e => simp [hg, take_append_cons]
  | ok ret =>
    cases ret with
    | json j => simp [hg, take_append_cons]
    | raw r =>
      simp only [hg]
      split
      · split <;> simp [take_append_cons]
      · simp [take_append_cons]

/-- A failed bind phase makes `download` return the bind trace and
error unchanged: no GET is issued. -/
theorem sp_download_trace_err (env : DocEnv) (st : DocState)
    (e : DomainError) (herr : (bindPhase env st).2 = .error e) :
    sp_download env st = ((bindPhase env st).1, .error e) := by
  rcases hE : bindPhase env st with ⟨tr, res⟩
  rw [hE] at herr
  have hres : res = .error e := herr
  subst hres
  unfold sp_download
  rw [hE]

/-- **C9.** On every document handle with no item id bound,
`get_preauth_url` and `get_preview_url` fail fast with a not-found
error and an empty request trace (no path resolution is attempted),
whereas `delete` and `download` on the same handle first run the lazy
bind phase: when it succeeds it has performed a path resolution
(`resolveItem` appears in its trace) and only then does the operation
act (its next request follows the whole bind trace); when the bind
phase fails the operation returns its error without acting. -/
theorem C9_strict_lazy_asymmetry (env : DocEnv) (st : DocState)
    (h : st.item_id = none) :
    get_preauth_url env st = ([], .error (.notFound preauthUnboundMsg))
  ∧ get_preview_url env st = ([], .error (.notFound previewUnboundMsg))
  ∧ (∀ d st2, (bindPhase env st).2 = .ok (d, st2) →
      (∃ dd pp, DStep.resolveItem dd pp ∈ (bindPhase env st).1)
    ∧ (sp_delete env st).1 =
        (bindPhase env st).1 ++
          [DStep.graphCall .DELETE (itemUrl env d st2) [204]]
    ∧ (sp_download env st).1.take ((bindPhase env st).1.length + 1) =
        (bindPhase env st).1 ++
          [DStep.graphCall .GET (contentUrl env d st2) [200, 301, 302]])
  ∧ (∀ e, (bindPhase env st).2 = .error e →
      sp_delete env st = ((bindPhase env st).1, .error e)
    ∧ sp_download env st = ((bindPhase env st).1, .error e)) := by
  refine ⟨?_, ?_, ?_, ?_⟩
  · simp [get_preauth_url, h]
  · simp [get_preview_url, h]
  · intro d st2 hok
    refine ⟨?_, sp_delete_trace_ok env st d st2 hok,
      sp_download_trace_ok env st d st2 hok⟩
    have hb : bindPhase env st = ((bindPhase env st).1, .ok (d, st2)) :=
      Prod.ext rfl hok
    exact bindPhase_resolves env st _ d st2 h hb
  · intro e herr
    exact ⟨sp_delete_trace_err env st e herr,
      sp_download_trace_err env st e herr⟩

/-- Witness for C9 at a concrete unbound-with-url handle: preauth and
preview fail fast with empty traces, while the bind phase of delete
resolves the item and delete then issues its DELETE. -/
theorem C9_strict_lazy_asymmetry_witness :
    docStW.item_id = none
  ∧ get_preauth_url docEnvW docStW =
      ([], .error (.notFound preauthUnboundMsg))
  ∧ get_preview_url docEnvW docStW =
      ([], .error (.notFound previewUnboundMsg))
  ∧ (bindPhase docEnvW docStW).2 = .ok (("d").data, docStBound)
  ∧ (∃ dd pp, DStep.resolveItem dd pp ∈ (bindPhase docEnvW docStW).1)
  ∧ (sp_delete docEnvW docStW).1 =
      (bindPhase docEnvW docStW).1 ++
        [DStep.graphCall .DELETE
          (itemUrl docEnvW (("d").data) docStBound) [204]] := by
  have hmain := C9_strict_lazy_asymmetry docEnvW docStW rfl
  have hok : (bindPhase docEnvW docStW).2 = .ok (("d").data, docStBound) := by
    decide
  have h3 := hmain.2.2.1 (("d").data) docStBound hok
  exact ⟨rfl, hmain.1, hmain.2.1, hok, h3.1, h3.2.1⟩

/-- **C10.** For a bound document whose content GET yields an accepted
status 200 with a JSON content type and a parseable JSON body — so the
dispatcher returns the decoded dict rather than a raw response handle —
`download` fails with the `RuntimeError` "Unexpected response type
while downloading." instead of returning the file's bytes; such a
response never yields a success value. -/
theorem C10_download_json_never_bytes (env : DocEnv) (st : DocState)
    (d iid : Str) (hd : st.drive_id = some d) (hdne : d ≠ [])
    (hit : st.item_id = some iid) (hiidne : iid ≠ [])
    (hstatus : (env.net .GET (contentUrl env d st)).status_code = 200)
    (hct : jsonCT (env.net .GET (contentUrl env d st)).content_type = true)
    (j : JsonObj)
    (hjson : (env.net .GET (contentUrl env d st)).jsonVal = some j) :
    sp_download env st =
      ([DStep.graphCall .GET (contentUrl env d st) [200, 301, 302]],
        .error (.runtimeError
          ("Unexpected response type while downloading.").data)) := by
  have hbind : bindPhase env st = ([], .ok (d, st)) := by
    unfold bindPhase _ensure_drive_id
    rw [hd]
    simp only [Option.getD_some]
    rw [if_neg hdne]
    simp only [hit, Option.getD_some]
    rw [if_neg hiidne]
  have hgr : (graph_request ("GET").data (contentUrl env d st)
      (some (.many [200, 301, 302])) none false
      (env.net .GET (contentUrl env d st))).result = .ok (.json j) := by
    simp [graph_request, effExpected, ExpStatus.toList, hstatus, hct, hjson]
  unfold sp_download
  rw [hbind]
  simp [hgr]

/-- Witness for C10 at a concrete bound handle against a transport
answering the content GET with a 200 JSON body. -/
theorem C10_download_json_never_bytes_witness :
    docStBound.drive_id = some (("d").data)
  ∧ docStBound.item_id = some (("i").data)
  ∧ (docEnvW.net .GET (contentUrl docEnvW (("d").data) docStBound)).status_code
      = 200
  ∧ jsonCT (docEnvW.net .GET
      (contentUrl docEnvW (("d").data) docStBound)).content_type = true
  ∧ sp_download docEnvW docStBound =
      ([DStep.graphCall .GET (contentUrl docEnvW (("d").data) docStBound)
          [200, 301, 302]],
        .error (.runtimeError
          ("Unexpected response type while downloading.").data)) :=
  ⟨rfl, rfl, rfl, by decide,
    C10_download_json_never_bytes docEnvW docStBound (("d").data)
      (("i").data) rfl (by decide) rfl (by decide) rfl (by decide)
      [((("id").data : Str), (("i").data : Str))] rfl⟩

end RVms
